import Mathlib

set_option maxHeartbeats 1000000

/-!
A verification development for the Redis-backed session-and-event layer:
the event store (`RedisEventStore` : `generateEventId`, `getStreamIdFromEventId`,
`storeEvent`, `replayEventsAfter`, `cleanupOldEvents`) and the two session
managers (the stateless `SessionManager` of `sessionManager.ts`, and the
ownership-tracking variant, here in namespace `Stateful`).

Modelling conventions, used throughout:
* Redis is embedded as an explicit state.  Hashes are total functions
  `String → Option _` (a `none` value models both a missing key and a key
  whose required fields are absent, which `hGetAll` renders as an empty
  object).  The `event:`/`stream:`/`session:` key prefixes keep the three
  key families disjoint in the real store, so they are modelled as three
  separate maps.
* `Date.now()` and `Math.random()` are nondeterministic; every call site
  receives its observed value as an explicit parameter.
* TTLs (`expire`) only cause keys to vanish later; they are modelled by
  quantifying over states in which records may be absent, and the `expire`
  calls themselves are no-ops on the logical state.
* JSON-RPC message payloads are opaque to this layer (stored verbatim via
  `JSON.stringify`, recovered via `JSON.parse`); they are modelled as an
  abstract countable type (`Nat`) with an injective serialization
  `encodeMessage` whose partial inverse `decodeMessage` models `JSON.parse`:
  strings outside the image are exactly the blobs on which parsing throws.
-/

/-- Models `JSON.stringify` on an opaque JSON-RPC message (see the header):
an injective encoding of the abstract message type into strings. -/
def encodeMessage (m : Nat) : String :=
  String.mk ('m' :: List.replicate m 'i')

/-- Models `JSON.parse` on a stored payload blob: the partial inverse of
`encodeMessage`, `none` exactly on malformed blobs. -/
def decodeMessage (s : String) : Option Nat :=
  match s.data with
  | [] => none
  | c :: rest =>
    if c = 'm' ∧ rest.all (fun d => d = 'i') then some rest.length else none

/-- The hash stored under `event:<eventId>` by `storeEvent`: fields
`streamId`, `message` (the serialized payload, a string) and `timestamp`
(stored as a decimal string and read back with `parseInt`; the lossless
string round-trip is composed away, leaving a `Nat`). -/
structure EventRecord where
  streamId : String
  message : String
  timestamp : Nat
deriving DecidableEq, Repr

/-- The Redis state seen by `RedisEventStore`: the `event:<eventId>` hashes
and the `stream:<streamId>` sorted sets (kept ordered by (score, member),
exactly as redis stores them; a missing sorted-set key behaves as `[]`). -/
structure RedisState where
  events : String → Option EventRecord
  zsets : String → List (String × Nat)

/-- A store with no keys at all. -/
def RedisState.empty : RedisState :=
  { events := fun _ => none, zsets := fun _ => [] }

/-- Strict lexicographic order on character lists, the order redis uses to
break score ties between sorted-set members. -/
def charListLtb : List Char → List Char → Bool
  | [], [] => false
  | [], _ :: _ => true
  | _ :: _, [] => false
  | a :: as, b :: bs =>
    if a.toNat < b.toNat then true
    else if b.toNat < a.toNat then false
    else charListLtb as bs

/-- Strict lexicographic order on strings (member tie-break order). -/
def strLtb (a b : String) : Bool :=
  charListLtb a.data b.data

/-- Ordered insertion into a redis sorted set: redis keeps entries ordered by
score, with equal scores ordered lexicographically by member. -/
def zinsert (m : String) (sc : Nat) : List (String × Nat) → List (String × Nat)
  | [] => [(m, sc)]
  | e :: rest =>
    if sc < e.2 then (m, sc) :: e :: rest
    else if sc = e.2 ∧ strLtb m e.1 then (m, sc) :: e :: rest
    else e :: zinsert m sc rest

/-- `ZADD key score member`: if the member is present its score is updated,
otherwise it is inserted, keeping the set ordered. -/
def zadd (m : String) (sc : Nat) (l : List (String × Nat)) : List (String × Nat) :=
  zinsert m sc (l.filter (fun e => e.1 ≠ m))

/-- `ZRANGEBYSCORE key min +inf`: members with score at least `minScore`, in
stored (score, member) order. -/
def zRangeByScoreGe (minScore : Nat) (l : List (String × Nat)) : List String :=
  (l.filter (fun e => minScore ≤ e.2)).map Prod.fst

/-- `ZRANGEBYSCORE key -inf max`: members with score at most `maxScore`
(an `Int`, since the cutoff `Date.now() - olderThanMs` may be negative). -/
def zRangeByScoreLe (maxScore : Int) (l : List (String × Nat)) : List String :=
  (l.filter (fun e => (e.2 : Int) ≤ maxScore)).map Prod.fst

/-- `ZREMRANGEBYSCORE key -inf max`: drop every entry with score at most
`maxScore`. -/
def zremRangeByScoreLe (maxScore : Int) (l : List (String × Nat)) : List (String × Nat) :=
  l.filter (fun e => !((e.2 : Int) ≤ maxScore : Bool))

/-- JavaScript `String.prototype.split` with a single-character separator, on
the character list of a string: `split('_')` of `""` is `[""]`, of `"_"` is
`["", ""]`, etc. -/
def splitCharList (sep : Char) : List Char → List (List Char)
  | [] => [[]]
  | c :: cs =>
    if c = sep then [] :: splitCharList sep cs
    else
      match splitCharList sep cs with
      | [] => [[c]]
      | p :: ps => (c :: p) :: ps

/-- `RedisEventStore.generateEventId`:
`streamId + '_' + Date.now() + '_' + Math.random().toString(36).substring(2,10)`.
The observed clock value and random suffix are explicit parameters. -/
def generateEventId (streamId : String) (now : Nat) (rand : String) : String :=
  streamId ++ "_" ++ Nat.repr now ++ "_" ++ rand

/-- `RedisEventStore.getStreamIdFromEventId`: split the id on `'_'` and return
the first part (the `parts.length > 0` guard of the source corresponds to the
`[]` branch, which `splitCharList` never actually produces). -/
def getStreamIdFromEventId (eventId : String) : String :=
  match splitCharList '_' eventId.data with
  | [] => ""
  | p :: _ => String.mk p

/-- `RedisEventStore.storeEvent`: generate the event id (observing the clock
as `nowId`), observe the clock again as the stored `timestamp` (`nowStore`),
write the `event:<eventId>` hash, `ZADD` the id into `stream:<streamId>`
scored by the timestamp, and refresh both TTLs (no-ops here). -/
def storeEvent (st : RedisState) (streamId : String) (message : Nat)
    (nowId nowStore : Nat) (rand : String) : String × RedisState :=
  let eventId := generateEventId streamId nowId rand
  let timestamp := nowStore
  let ev : EventRecord :=
    { streamId := streamId, message := encodeMessage message, timestamp := timestamp }
  let st1 : RedisState :=
    { st with events := fun k => if k = eventId then some ev else st.events k }
  let st2 : RedisState :=
    { st1 with zsets := fun s =>
        if s = streamId then zadd eventId timestamp (st1.zsets streamId)
        else st1.zsets s }
  (eventId, st2)

/-- The body of the delivery loop of `RedisEventStore.replayEventsAfter`: for
one event id taken from the range query, fetch `event:<eventId>`; if the hash
is missing or its `message` field is absent/empty (a falsy field in the
source), deliver nothing; if `JSON.parse` of the blob throws, the error is
caught and logged and nothing is delivered; otherwise deliver the
`(eventId, message)` pair to the sink. -/
def sendStep (st : RedisState) (eventId : String) : Option (String × Nat) :=
  match st.events eventId with
  | none => none
  | some eventData =>
    if eventData.message = "" then none
    else
      match decodeMessage eventData.message with
      | none => none
      | some m => some (eventId, m)

/-- `RedisEventStore.replayEventsAfter`: returns the resolved stream id
together with the ordered list of `(eventId, message)` pairs delivered to the
caller-supplied sink (the sink is awaited sequentially in the source, so the
list order is the delivery order).  Empty, unparseable or unresolved
`lastEventId` yields the sentinel `("", [])`. -/
def replayEventsAfter (st : RedisState) (lastEventId : String) :
    String × List (String × Nat) :=
  if lastEventId = "" then ("", [])
  else
    let streamId := getStreamIdFromEventId lastEventId
    if streamId = "" then ("", [])
    else
      match st.events lastEventId with
      | none => ("", [])
      | some lastEventData =>
        let lastTimestamp := lastEventData.timestamp
        let eventIds := zRangeByScoreGe (lastTimestamp + 1) (st.zsets streamId)
        (streamId, eventIds.filterMap (sendStep st))

/-- `RedisEventStore.cleanupOldEvents`: compute the cutoff
`Date.now() - olderThanMs`, fetch the ids of the events of the stream with score
up to the cutoff, delete each of their `event:` hashes, then
`ZREMRANGEBYSCORE` the same score range out of the ordering index. -/
def cleanupOldEvents (st : RedisState) (streamId : String)
    (olderThanMs : Nat) (now : Nat) : RedisState :=
  let cutoffTime : Int := (now : Int) - (olderThanMs : Int)
  let oldEventIds := zRangeByScoreLe cutoffTime (st.zsets streamId)
  let st1 : RedisState := oldEventIds.foldl
    (fun s eid => { s with events := fun k => if k = eid then none else s.events k }) st
  { st1 with zsets := fun s =>
      if s = streamId then zremRangeByScoreLe cutoffTime (st1.zsets streamId)
      else st1.zsets s }

/-- One append request: the payload plus the nondeterministic inputs observed
during `storeEvent` (the two `Date.now()` readings and the random suffix). -/
structure AppendReq where
  msg : Nat
  tId : Nat
  t : Nat
  rand : String
deriving DecidableEq, Repr

/-- The event id `storeEvent` generates for one append request. -/
def reqEventId (streamId : String) (r : AppendReq) : String :=
  generateEventId streamId r.tId r.rand

/-- A sequence of `storeEvent` calls on one stream, returning the generated
event ids in order together with the final store state. -/
def appendAll : RedisState → String → List AppendReq → List String × RedisState
  | st, _, [] => ([], st)
  | st, s, r :: rs =>
    let (eid, st1) := storeEvent st s r.msg r.tId r.t r.rand
    let (eids, st2) := appendAll st1 s rs
    (eid :: eids, st2)

/-- The kind of a live transport handle. -/
inductive TransportKind
  | streamable
  | sse
deriving DecidableEq, Repr

/-- A local transport handle (`StreamableHTTPServerTransport` or
`SSEServerTransport`): the only observable attributes this layer reads or
writes are the kind of the handle, its `sessionId`, and (for SSE handles) the
endpoint path passed to the constructor. -/
structure Transport where
  kind : TransportKind
  sessionId : String
  endpoint : String
deriving DecidableEq, Repr

/-- The SSE sub-state embedded in session metadata (`sseState`):
`{ isConnected, lastEventId? }`. -/
structure SSEState where
  isConnected : Bool
  lastEventId : Option String
deriving DecidableEq, Repr

/-- In-memory `SessionMetadata` of the stateless manager.  `transportType` is
stored and read back as an unvalidated string (the source casts it), so it is
a `String` here too. -/
structure SessionMetadata where
  sessionId : String
  transportType : String
  createdAt : Nat
  lastActive : Nat
  sseState : Option SSEState
deriving DecidableEq, Repr

/-- The hash stored under `session:<sessionId>`: the four always-present
string fields (the decimal round-trip of the numeric fields is composed away) plus
the optional `sseState` blob, kept in its serialized string form. -/
structure SessionHash where
  sessionId : String
  transportType : String
  createdAt : Nat
  lastActive : Nat
  sseState : Option String
deriving DecidableEq, Repr

/-- Models `JSON.stringify` on the SSE sub-state: a concrete injective
encoding (connection flag, then the optional cursor). -/
def encodeSSEState (s : SSEState) : String :=
  (if s.isConnected then "C" else "D") ++
    (match s.lastEventId with
     | none => ""
     | some e => ";" ++ e)

/-- Models `JSON.parse` of an `sseState` blob: the partial inverse of
`encodeSSEState`; `none` models a parse error (which the source catches). -/
def decodeSSEState (s : String) : Option SSEState :=
  match s.data with
  | [] => none
  | c :: rest =>
    if c = 'C' ∨ c = 'D' then
      match rest with
      | [] => some { isConnected := c == 'C', lastEventId := none }
      | d :: e =>
        if d = ';' then some { isConnected := c == 'C', lastEventId := some (String.mk e) }
        else none
    else none

/-- `SessionManager.serializeMetadata`: flatten the metadata to string-valued
hash fields; the `sseState` field is present exactly when the sub-state is. -/
def serializeMetadata (metadata : SessionMetadata) : SessionHash :=
  { sessionId := metadata.sessionId
    transportType := metadata.transportType
    createdAt := metadata.createdAt
    lastActive := metadata.lastActive
    sseState := metadata.sseState.map encodeSSEState }

/-- `SessionManager.deserializeMetadata`: rebuild the metadata; a missing,
empty (falsy) or malformed `sseState` blob leaves the sub-state absent
(`JSON.parse` errors are caught). -/
def deserializeMetadata (data : SessionHash) : SessionMetadata :=
  let base : SessionMetadata :=
    { sessionId := data.sessionId
      transportType := data.transportType
      createdAt := data.createdAt
      lastActive := data.lastActive
      sseState := none }
  match data.sseState with
  | none => base
  | some blob =>
    if blob = "" then base
    else
      match decodeSSEState blob with
      | none => base
      | some ss => { base with sseState := some ss }

/-- `HSET session:<sid> <fields>` semantics: fields present in the write
overwrite, fields absent from the write survive from the old hash.  Only
`sseState` is ever optional, so merging reduces to keeping the old blob when
the write carries none. -/
def hsetSession (old : Option SessionHash) (fields : SessionHash) : SessionHash :=
  match old, fields.sseState with
  | some o, none => { fields with sseState := o.sseState }
  | _, _ => fields

/-- The state of one stateless `SessionManager` node: the shared
`session:<sid>` hashes plus the in-memory `localTransports` map of this node. -/
structure ManagerState where
  sessions : String → Option SessionHash
  localTransports : String → Option Transport

/-- A node with an empty store and no local transports. -/
def ManagerState.empty : ManagerState :=
  { sessions := fun _ => none, localTransports := fun _ => none }

/-- `SessionManager.registerSession`: build the metadata (with the connected
SSE sub-state exactly when the type is `sse`), `HSET` it with a 30-minute TTL
(a no-op here), and record the transport locally.  The `onclose` hook the
source installs on the transport is modelled by `oncloseHandler` below. -/
def registerSession (st : ManagerState) (sessionId : String) (transport : Transport)
    (transportType : String) (now : Nat) : ManagerState :=
  let metadata : SessionMetadata :=
    { sessionId := sessionId
      transportType := transportType
      createdAt := now
      lastActive := now
      sseState :=
        if transportType = "sse" then some { isConnected := true, lastEventId := none }
        else none }
  { sessions := fun k =>
      if k = sessionId then some (hsetSession (st.sessions k) (serializeMetadata metadata))
      else st.sessions k
    localTransports := fun k =>
      if k = sessionId then some transport else st.localTransports k }

/-- `SessionManager.getSession`: `HGETALL` the hash; a missing key, or a hash
whose `sessionId` field is falsy, reads as `null`; otherwise deserialize. -/
def getSession (st : ManagerState) (sessionId : String) : Option SessionMetadata :=
  match st.sessions sessionId with
  | none => none
  | some data =>
    if data.sessionId = "" then none else some (deserializeMetadata data)

/-- `SessionManager.sessionExists`: an `EXISTS` check against the shared
store only. -/
def sessionExists (st : ManagerState) (sessionId : String) : Bool :=
  (st.sessions sessionId).isSome

/-- `SessionManager.getLocalTransport`: cache-only read. -/
def getLocalTransport (st : ManagerState) (sessionId : String) : Option Transport :=
  st.localTransports sessionId

/-- `SessionManager.markSessionDisconnected`: if the session reads back as an
`sse` session with a present sub-state, flip `isConnected` to `false`, bump
`lastActive` to now, and `HSET` the re-serialized metadata; otherwise do
nothing. -/
def markSessionDisconnected (st : ManagerState) (sessionId : String) (now : Nat) :
    ManagerState :=
  match getSession st sessionId with
  | none => st
  | some metadata =>
    if metadata.transportType = "sse" then
      match metadata.sseState with
      | none => st
      | some ss =>
        let md : SessionMetadata :=
          { metadata with sseState := some { ss with isConnected := false }, lastActive := now }
        { st with sessions := fun k =>
            if k = sessionId then some (hsetSession (st.sessions k) (serializeMetadata md))
            else st.sessions k }
    else st

/-- `SessionManager.isSSEConnected`: the session reads back as `sse` and its
sub-state reports connected. -/
def isSSEConnected (st : ManagerState) (sessionId : String) : Bool :=
  match getSession st sessionId with
  | none => false
  | some metadata =>
    metadata.transportType == "sse" &&
      (match metadata.sseState with
       | some ss => ss.isConnected
       | none => false)

/-- The restoration branch of `SessionManager.getOrCreateSSETransport`, taken
when no local SSE transport exists: if a response object is present, build
`new SSEServerTransport` at endpoint `/messages` (whose own generated session id is
the `freshId` parameter), override its `sessionId` with the existing one,
record it locally, mark the sub-state connected (when present) and `HSET` the
metadata back; with no response object return `null`. -/
def createSSEBranch (st : ManagerState) (sessionId : String) (res : Bool)
    (freshId : String) (metadata : SessionMetadata) : Option Transport × ManagerState :=
  if res then
    let transport0 : Transport :=
      { kind := TransportKind.sse, sessionId := freshId, endpoint := "/messages" }
    let transport : Transport := { transport0 with sessionId := sessionId }
    let md : SessionMetadata :=
      { metadata with sseState := metadata.sseState.map (fun s => { s with isConnected := true }) }
    (some transport,
      { sessions := fun k =>
          if k = sessionId then some (hsetSession (st.sessions k) (serializeMetadata md))
          else st.sessions k
        localTransports := fun k =>
          if k = sessionId then some transport else st.localTransports k })
  else (none, st)

/-- `SessionManager.getOrCreateSSETransport`: `null` unless the metadata
exists with type `sse`; an existing local SSE transport is returned as-is; a
local transport of the wrong kind falls through to the restoration branch. -/
def getOrCreateSSETransport (st : ManagerState) (sessionId : String) (res : Bool)
    (freshId : String) : Option Transport × ManagerState :=
  match getSession st sessionId with
  | none => (none, st)
  | some metadata =>
    if metadata.transportType ≠ "sse" then (none, st)
    else
      match st.localTransports sessionId with
      | some localTransport =>
        if localTransport.kind = TransportKind.sse then (some localTransport, st)
        else createSSEBranch st sessionId res freshId metadata
      | none => createSSEBranch st sessionId res freshId metadata

/-- `SessionManager.removeSession`: `DEL` the store record and drop the local
transport, both unconditionally. -/
def removeSession (st : ManagerState) (sessionId : String) : ManagerState :=
  { sessions := fun k => if k = sessionId then none else st.sessions k
    localTransports := fun k => if k = sessionId then none else st.localTransports k }

/-- The `onclose` hook `registerSession` installs in the stateless manager:
`markSessionDisconnected` then drop the local transport. -/
def oncloseHandler (st : ManagerState) (sessionId : String) (now : Nat) : ManagerState :=
  let st1 := markSessionDisconnected st sessionId now
  { st1 with localTransports := fun k =>
      if k = sessionId then none else st1.localTransports k }

namespace Stateful

/-- The hash the ownership-tracking variant stores under `session:<sid>`: all
five fields always present, no optional sub-state. -/
structure SessionHash where
  sessionId : String
  transportType : String
  nodeId : String
  createdAt : Nat
  lastActive : Nat
deriving DecidableEq, Repr

/-- The state of one ownership-tracking `SessionManager` node. -/
structure ManagerState where
  sessions : String → Option Stateful.SessionHash
  localTransports : String → Option Transport

/-- A node with an empty store and no local transports. -/
def ManagerState.empty : Stateful.ManagerState :=
  { sessions := fun _ => none, localTransports := fun _ => none }

/-- `SessionManager.registerSession` (ownership-tracking variant): `HSET` the
full metadata (including the id of this node) with a 30-minute TTL (a no-op here)
and record the transport locally; the installed `onclose` hook is
`Stateful.oncloseHandler`. -/
def registerSession (st : Stateful.ManagerState) (sessionId : String)
    (transport : Transport) (transportType : String) (nodeId : String) (now : Nat) :
    Stateful.ManagerState :=
  { sessions := fun k =>
      if k = sessionId then
        some { sessionId := sessionId, transportType := transportType,
               nodeId := nodeId, createdAt := now, lastActive := now }
      else st.sessions k
    localTransports := fun k =>
      if k = sessionId then some transport else st.localTransports k }

/-- `SessionManager.unregisterSession`: `DEL` the record and drop the local
transport. -/
def unregisterSession (st : Stateful.ManagerState) (sessionId : String) :
    Stateful.ManagerState :=
  { sessions := fun k => if k = sessionId then none else st.sessions k
    localTransports := fun k => if k = sessionId then none else st.localTransports k }

/-- The `onclose` hook of the ownership-tracking variant: unregister the
session outright, whatever its transport type. -/
def oncloseHandler (st : Stateful.ManagerState) (sessionId : String) :
    Stateful.ManagerState :=
  unregisterSession st sessionId

end Stateful

/-! ### Helper lemmas -/

theorem decodeMessage_encodeMessage (m : Nat) : decodeMessage (encodeMessage m) = some m := by
  have hall : (List.replicate m 'i').all (fun d => d = 'i') = true := by
    simp [List.all_eq_true, List.mem_replicate]
  simp [decodeMessage, encodeMessage, hall]

theorem encodeMessage_ne_empty (m : Nat) : encodeMessage m ≠ "" := by
  intro h
  have := congrArg String.data h
  simp [encodeMessage] at this

theorem decodeSSEState_encodeSSEState (ss : SSEState) :
    decodeSSEState (encodeSSEState ss) = some ss := by
  obtain ⟨c, le⟩ := ss
  cases c <;> cases le <;>
    simp [decodeSSEState, encodeSSEState, String.data_append]

theorem encodeSSEState_ne_empty (ss : SSEState) : encodeSSEState ss ≠ "" := by
  intro h
  have := congrArg String.data h
  obtain ⟨c, le⟩ := ss
  cases c <;> cases le <;> simp [encodeSSEState, String.data_append] at this

theorem data_generateEventId (s : String) (t : Nat) (r : String) :
    (generateEventId s t r).data =
      s.data ++ '_' :: ((Nat.repr t).data ++ '_' :: r.data) := by
  have hu : ("_" : String).data = ['_'] := rfl
  simp [generateEventId, String.data_append, hu]

theorem generateEventId_ne_empty (s : String) (t : Nat) (r : String) :
    generateEventId s t r ≠ "" := by
  intro h
  have h2 := congrArg String.data h
  rw [data_generateEventId] at h2
  simp at h2

theorem splitCharList_append (sep : Char) (ys : List Char) :
    ∀ xs : List Char, sep ∉ xs →
      splitCharList sep (xs ++ sep :: ys) = xs :: splitCharList sep ys
  | [], _ => by simp [splitCharList]
  | c :: cs, h => by
    have hc : ¬c = sep := fun hcs => h (hcs ▸ List.mem_cons_self c cs)
    have hcs : sep ∉ cs := fun hm => h (List.mem_cons_of_mem c hm)
    simp only [List.cons_append, splitCharList, if_neg hc]
    rw [show cs.append (sep :: ys) = cs ++ sep :: ys from rfl,
      splitCharList_append sep ys cs hcs]

theorem getStreamIdFromEventId_gen (s : String) (t : Nat) (r : String)
    (h : '_' ∉ s.data) : getStreamIdFromEventId (generateEventId s t r) = s := by
  unfold getStreamIdFromEventId
  rw [data_generateEventId, splitCharList_append '_' ((Nat.repr t).data ++ '_' :: r.data) s.data h]

theorem appendAll_fst (s : String) :
    ∀ (reqs : List AppendReq) (st : RedisState),
      (appendAll st s reqs).1 = reqs.map (reqEventId s)
  | [], _ => rfl
  | r :: rs, st => by
    have step : appendAll st s (r :: rs)
        = ((reqEventId s r) :: (appendAll (storeEvent st s r.msg r.tId r.t r.rand).2 s rs).1,
           (appendAll (storeEvent st s r.msg r.tId r.t r.rand).2 s rs).2) := rfl
    rw [step, List.map_cons]
    exact congrArg _ (appendAll_fst s rs _)

theorem appendAll_events_not_mem (s : String) :
    ∀ (reqs : List AppendReq) (st : RedisState) (k : String),
      k ∉ reqs.map (reqEventId s) →
      (appendAll st s reqs).2.events k = st.events k
  | [], _, _, _ => rfl
  | r :: rs, st, k, h => by
    simp only [List.map_cons, List.mem_cons, not_or] at h
    obtain ⟨h1, h2⟩ := h
    have step : (appendAll st s (r :: rs)).2
        = (appendAll (storeEvent st s r.msg r.tId r.t r.rand).2 s rs).2 := rfl
    rw [step, appendAll_events_not_mem s rs _ k h2]
    show (if k = generateEventId s r.tId r.rand then _ else st.events k) = st.events k
    exact if_neg h1

theorem appendAll_events_mem (s : String) :
    ∀ (reqs : List AppendReq) (st : RedisState),
      (reqs.map (reqEventId s)).Nodup →
      ∀ r ∈ reqs,
        (appendAll st s reqs).2.events (reqEventId s r) =
          some { streamId := s, message := encodeMessage r.msg, timestamp := r.t }
  | [], _, _, r, hr => absurd hr (List.not_mem_nil r)
  | q :: rs, st, hnd, r, hr => by
    simp only [List.map_cons, List.nodup_cons] at hnd
    obtain ⟨hq, hnd2⟩ := hnd
    have step : (appendAll st s (q :: rs)).2
        = (appendAll (storeEvent st s q.msg q.tId q.t q.rand).2 s rs).2 := rfl
    rcases List.mem_cons.mp hr with h | h
    · subst h
      rw [step, appendAll_events_not_mem s rs _ _ hq]
      show (if reqEventId s r = generateEventId s r.tId r.rand then
          some { streamId := s, message := encodeMessage r.msg, timestamp := r.t }
        else st.events _) = _
      exact if_pos rfl
    · rw [step]
      exact appendAll_events_mem s rs _ hnd2 r h

theorem zinsert_append_max (m : String) (sc : Nat) :
    ∀ l : List (String × Nat), (∀ e ∈ l, e.2 < sc) →
      zinsert m sc l = l ++ [(m, sc)]
  | [], _ => rfl
  | e :: rest, h => by
    have he : e.2 < sc := h e (List.mem_cons_self _ _)
    have h1 : ¬sc < e.2 := by omega
    have h2 : ¬(sc = e.2 ∧ strLtb m e.1 = true) := by
      rintro ⟨hh, _⟩; omega
    rw [zinsert, if_neg h1, if_neg h2, List.cons_append,
      zinsert_append_max m sc rest (fun x hx => h x (List.mem_cons_of_mem _ hx))]

theorem filter_keep_of_ne (m : String) (l : List (String × Nat))
    (h : ∀ e ∈ l, e.1 ≠ m) : l.filter (fun e => e.1 ≠ m) = l := by
  apply List.filter_eq_self.mpr
  intro a ha
  simpa using h a ha

theorem appendAll_zsets (s : String) :
    ∀ (reqs : List AppendReq) (st : RedisState),
      (reqs.map (reqEventId s)).Nodup →
      List.Pairwise (· < ·) (reqs.map AppendReq.t) →
      (∀ e ∈ st.zsets s, ∀ r ∈ reqs, e.2 < r.t) →
      (∀ e ∈ st.zsets s, ∀ r ∈ reqs, e.1 ≠ reqEventId s r) →
      (appendAll st s reqs).2.zsets s =
        st.zsets s ++ reqs.map (fun r => (reqEventId s r, r.t))
  | [], st, _, _, _, _ => by simp [appendAll]
  | q :: rs, st, hnd, hmono, hsc, hne => by
    simp only [List.map_cons, List.nodup_cons] at hnd
    obtain ⟨hq, hnd2⟩ := hnd
    simp only [List.map_cons, List.pairwise_cons] at hmono
    obtain ⟨hm1, hmono2⟩ := hmono
    have hz1 : (storeEvent st s q.msg q.tId q.t q.rand).2.zsets s
        = st.zsets s ++ [(reqEventId s q, q.t)] := by
      show (if s = s then zadd (reqEventId s q) q.t (st.zsets s)
        else st.zsets s) = _
      rw [if_pos rfl]
      unfold zadd
      rw [filter_keep_of_ne (reqEventId s q) _
          (fun e he => hne e he q (List.mem_cons_self _ _)),
        zinsert_append_max _ _ _ (fun e he => hsc e he q (List.mem_cons_self _ _))]
    have step : (appendAll st s (q :: rs)).2
        = (appendAll (storeEvent st s q.msg q.tId q.t q.rand).2 s rs).2 := rfl
    have hsc2 : ∀ e ∈ (storeEvent st s q.msg q.tId q.t q.rand).2.zsets s,
        ∀ r ∈ rs, e.2 < r.t := by
      intro e he r hr
      rw [hz1] at he
      rcases List.mem_append.mp he with h | h
      · exact hsc e h r (List.mem_cons_of_mem _ hr)
      · have : e = (reqEventId s q, q.t) := by simpa using h
        rw [this]
        exact hm1 r.t (List.mem_map_of_mem AppendReq.t hr)
    have hne2 : ∀ e ∈ (storeEvent st s q.msg q.tId q.t q.rand).2.zsets s,
        ∀ r ∈ rs, e.1 ≠ reqEventId s r := by
      intro e he r hr
      rw [hz1] at he
      rcases List.mem_append.mp he with h | h
      · exact hne e h r (List.mem_cons_of_mem _ hr)
      · have he2 : e = (reqEventId s q, q.t) := by simpa using h
        rw [he2]
        intro hcontra
        apply hq
        rw [show reqEventId s q = reqEventId s r from hcontra]
        exact List.mem_map_of_mem (reqEventId s) hr
    rw [step, appendAll_zsets s rs _ hnd2 hmono2 hsc2 hne2, hz1]
    simp

theorem filterMap_eq_map_of_forall {α β : Type} (F : α → Option β) (G : α → β) :
    ∀ l : List α, (∀ x ∈ l, F x = some (G x)) → l.filterMap F = l.map G
  | [], _ => rfl
  | x :: xs, h => by
    simp only [List.filterMap_cons, h x (List.mem_cons_self _ _), List.map_cons,
      filterMap_eq_map_of_forall F G xs (fun y hy => h y (List.mem_cons_of_mem _ hy))]

theorem filterMap_filter_ne {α β : Type} [DecidableEq α] (F : α → Option β) (a : α)
    (hFa : F a = none) :
    ∀ l : List α, (l.filter (fun x => x ≠ a)).filterMap F = l.filterMap F
  | [] => rfl
  | x :: xs => by
    by_cases hx : x = a
    · subst hx
      have h1 : List.filter (fun y => decide (y ≠ x)) (x :: xs)
          = List.filter (fun y => decide (y ≠ x)) xs := by
        rw [List.filter_cons]
        simp
      rw [h1, filterMap_filter_ne F x hFa xs, List.filterMap_cons, hFa]
    · have h1 : List.filter (fun y => decide (y ≠ a)) (x :: xs)
          = x :: List.filter (fun y => decide (y ≠ a)) xs := by
        rw [List.filter_cons]
        simp [hx]
      rw [h1, List.filterMap_cons, List.filterMap_cons, filterMap_filter_ne F a hFa xs]

theorem sendStep_fst (st : RedisState) (e : String) (p : String × Nat)
    (h : sendStep st e = some p) : p.1 = e := by
  unfold sendStep at h
  split at h
  · cases h
  · split at h
    · cases h
    · split at h
      · cases h
      · cases h
        rfl

theorem foldl_del_events :
    ∀ (ids : List String) (st : RedisState) (k : String),
      (ids.foldl (fun s eid =>
        { s with events := fun k2 => if k2 = eid then none else s.events k2 }) st).events k
        = if k ∈ ids then none else st.events k
  | [], st, k => by simp
  | i :: is, st, k => by
    rw [List.foldl_cons, foldl_del_events is _ k]
    by_cases hk : k ∈ is
    · simp [hk]
    · by_cases hki : k = i
      · simp [hk, hki]
      · simp [hk, hki]

theorem foldl_del_zsets :
    ∀ (ids : List String) (st : RedisState),
      (ids.foldl (fun s eid =>
        { s with events := fun k2 => if k2 = eid then none else s.events k2 }) st).zsets
        = st.zsets
  | [], _ => rfl
  | i :: is, st => by rw [List.foldl_cons, foldl_del_zsets is]

theorem appendAll_zsets_empty (s : String) (reqs : List AppendReq)
    (hids : (reqs.map (reqEventId s)).Nodup)
    (hmono : List.Pairwise (· < ·) (reqs.map AppendReq.t)) :
    (appendAll RedisState.empty s reqs).2.zsets s
      = reqs.map (fun r => (reqEventId s r, r.t)) := by
  rw [appendAll_zsets s reqs RedisState.empty hids hmono
    (fun e he => absurd he (by simp [RedisState.empty]))
    (fun e he => absurd he (by simp [RedisState.empty]))]
  simp [RedisState.empty]

theorem hsetSession_of_isSome (old : Option SessionHash) (f : SessionHash)
    (h : f.sseState.isSome = true) : hsetSession old f = f := by
  unfold hsetSession
  rcases old with _ | o
  · rfl
  · rcases hf : f.sseState with _ | b
    · rw [hf] at h; cases h
    · rfl

theorem deserializeMetadata_fields (hh : SessionHash) :
    (deserializeMetadata hh).sessionId = hh.sessionId ∧
    (deserializeMetadata hh).transportType = hh.transportType ∧
    (deserializeMetadata hh).createdAt = hh.createdAt ∧
    (deserializeMetadata hh).lastActive = hh.lastActive := by
  rcases hh with ⟨sid, ty, c, la, ss⟩
  rcases ss with _ | blob
  · exact ⟨rfl, rfl, rfl, rfl⟩
  · by_cases hb : blob = ""
    · simp [deserializeMetadata, hb]
    · rcases hd : decodeSSEState blob with _ | s2 <;> simp [deserializeMetadata, hb, hd]

theorem deserialize_serialize (md : SessionMetadata) :
    deserializeMetadata (serializeMetadata md) = md := by
  rcases md with ⟨sid, ty, c, la, ss⟩
  rcases ss with _ | s2
  · rfl
  · simp [deserializeMetadata, serializeMetadata, encodeSSEState_ne_empty s2,
      decodeSSEState_encodeSSEState s2]

theorem getSession_eq_some (st : ManagerState) (sid : String) (md : SessionMetadata)
    (h : getSession st sid = some md) :
    ∃ hh, st.sessions sid = some hh ∧ hh.sessionId ≠ "" ∧ deserializeMetadata hh = md := by
  unfold getSession at h
  split at h
  · cases h
  · rename_i hh heq
    split at h
    · cases h
    · rename_i hne
      exact ⟨hh, heq, hne, by cases h; rfl⟩

/-- Concrete node state used to evaluate the session-restoration and
disconnect-marking theorems: one stored `sse` session with a connected
sub-state blob, no local transports. -/
def sseDemoState : ManagerState :=
  { sessions := fun k =>
      if k = "s" then some ⟨"s", "sse", 0, 0, some "C"⟩ else none
    localTransports := fun _ => none }

/-- Concrete node state with a malformed `sseState` blob. -/
def malformedDemoState : ManagerState :=
  { sessions := fun k =>
      if k = "s" then some ⟨"s", "sse", 0, 0, some "zz"⟩ else none
    localTransports := fun _ => none }

/-- Concrete event-store state for the replay-skip theorem: a resolvable
cursor event, an index entry whose per-event record is missing, and a later
deliverable event. -/
def c10DemoState : RedisState :=
  { events := fun k =>
      if k = "s_1_aa" then some { streamId := "s", message := encodeMessage 1, timestamp := 1 }
      else if k = "s_3_cc" then some { streamId := "s", message := encodeMessage 7, timestamp := 3 }
      else none
    zsets := fun k => if k = "s" then [("s_2_bb", 2), ("s_3_cc", 3)] else [] }

/-! ### Claim theorems -/

/-- C1 (counterexample): the claim as stated fails when two appends to the
same stream observe the same `Date.now()` millisecond.  Appending `m1` and
`m2` at the same timestamp 100 and replaying after the event id of `m1` delivers
nothing — not `{m2}` — because the range query starts at
`lastTimestamp + 1`. -/
theorem replay_same_millisecond_counterexample :
    replayEventsAfter (appendAll RedisState.empty "s1"
        [⟨1, 100, 100, "aa"⟩, ⟨2, 100, 100, "bb"⟩]).2
      (reqEventId "s1" ⟨1, 100, 100, "aa"⟩) = ("s1", []) ∧
    (("s1", [(reqEventId "s1" ⟨2, 100, 100, "bb"⟩, 2)]) :
        String × List (String × Nat)) ≠ ("s1", []) :=
  ⟨by decide, by decide⟩

/-- C1 (amended): for every stream id that is non-empty and free of the `'_'`
separator, and every sequence of appends via `storeEvent` whose stored
timestamps strictly increase (distinct milliseconds) and whose generated
event ids are pairwise distinct (no random-suffix collision),
`replayEventsAfter` on the event id returned for `mk` delivers exactly the
later messages `m(k+1)..mn`, in order, as `(eventId, payload)` pairs, and
resolves the stream id.  The query is over index entries with score at least
`timestamp(mk) + 1`, i.e. strictly greater than the stored timestamp of `mk`. -/
theorem replayEventsAfter_delivers_suffix (s : String) (pre post : List AppendReq)
    (rk : AppendReq)
    (hs : s ≠ "") (hu : '_' ∉ s.data)
    (hmono : List.Pairwise (· < ·) ((pre ++ rk :: post).map AppendReq.t))
    (hids : ((pre ++ rk :: post).map (reqEventId s)).Nodup) :
    replayEventsAfter (appendAll RedisState.empty s (pre ++ rk :: post)).2
        (reqEventId s rk)
      = (s, post.map (fun r => (reqEventId s r, r.msg))) := by
  have hrk_mem : rk ∈ pre ++ rk :: post :=
    List.mem_append_right _ (List.mem_cons_self _ _)
  have hne : reqEventId s rk ≠ "" := generateEventId_ne_empty s rk.tId rk.rand
  have hparse : getStreamIdFromEventId (reqEventId s rk) = s :=
    getStreamIdFromEventId_gen s rk.tId rk.rand hu
  have hev : (appendAll RedisState.empty s (pre ++ rk :: post)).2.events (reqEventId s rk)
      = some { streamId := s, message := encodeMessage rk.msg, timestamp := rk.t } :=
    appendAll_events_mem s (pre ++ rk :: post) _ hids rk hrk_mem
  have hzs : (appendAll RedisState.empty s (pre ++ rk :: post)).2.zsets s
      = (pre ++ rk :: post).map (fun r => (reqEventId s r, r.t)) := by
    rw [appendAll_zsets s (pre ++ rk :: post) RedisState.empty hids hmono
      (fun e he => absurd he (by simp [RedisState.empty]))
      (fun e he => absurd he (by simp [RedisState.empty]))]
    simp [RedisState.empty]
  -- decompose the monotonicity hypothesis
  rw [List.map_append, List.map_cons, List.pairwise_append] at hmono
  obtain ⟨-, hcp, hcross⟩ := hmono
  rw [List.pairwise_cons] at hcp
  obtain ⟨hhead, -⟩ := hcp
  have hpre : ∀ r ∈ pre, ¬(rk.t + 1 ≤ r.t) := by
    intro r hr
    have := hcross r.t (List.mem_map_of_mem AppendReq.t hr) rk.t
      (List.mem_cons_self _ _)
    omega
  have hpost : ∀ r ∈ post, rk.t + 1 ≤ r.t := by
    intro r hr
    have := hhead r.t (List.mem_map_of_mem AppendReq.t hr)
    omega
  have hfilter : (pre ++ rk :: post).filter (fun r => rk.t + 1 ≤ r.t) = post := by
    rw [List.filter_append]
    have h1 : pre.filter (fun r => rk.t + 1 ≤ r.t) = [] := by
      apply List.filter_eq_nil_iff.mpr
      intro r hr
      simpa using hpre r hr
    have h2 : (rk :: post).filter (fun r => rk.t + 1 ≤ r.t) = post := by
      rw [List.filter_cons]
      have hself : ¬(rk.t + 1 ≤ rk.t) := by omega
      simp only [decide_eq_true_eq, if_neg hself]
      apply List.filter_eq_self.mpr
      intro r hr
      simpa using hpost r hr
    rw [h1, h2, List.nil_append]
  have hrange : zRangeByScoreGe (rk.t + 1)
        ((appendAll RedisState.empty s (pre ++ rk :: post)).2.zsets s)
      = post.map (reqEventId s) := by
    rw [hzs]
    unfold zRangeByScoreGe
    rw [List.filter_map, List.map_map]
    have hcongr : (pre ++ rk :: post).filter
          ((fun e : String × Nat => decide (rk.t + 1 ≤ e.2)) ∘
            (fun r => (reqEventId s r, r.t)))
        = (pre ++ rk :: post).filter (fun r => rk.t + 1 ≤ r.t) := by
      apply List.filter_congr
      intro r _
      rfl
    rw [hcongr, hfilter]
    rfl
  have hsend : ∀ r ∈ post,
      sendStep (appendAll RedisState.empty s (pre ++ rk :: post)).2 (reqEventId s r)
        = some (reqEventId s r, r.msg) := by
    intro r hr
    have hmem : r ∈ pre ++ rk :: post :=
      List.mem_append_right _ (List.mem_cons_of_mem _ hr)
    have hev2 := appendAll_events_mem s (pre ++ rk :: post) RedisState.empty hids r hmem
    simp [sendStep, hev2, encodeMessage_ne_empty r.msg, decodeMessage_encodeMessage]
  -- assemble the replay computation
  simp only [replayEventsAfter, if_neg hne, hparse, if_neg hs, hev]
  rw [hrange, List.filterMap_map]
  exact congrArg (Prod.mk s)
    (filterMap_eq_map_of_forall _ (fun r => (reqEventId s r, r.msg)) post
      (fun r hr => hsend r hr))

/-- C1 (witness): a concrete run of the amended theorem — two appends at
timestamps 100 and 150; replay after the first delivers exactly the second. -/
theorem replayEventsAfter_delivers_suffix_witness :
    (("s1" : String) ≠ "" ∧ '_' ∉ ("s1" : String).data ∧
      List.Pairwise (· < ·) ((([] : List AppendReq) ++
        (⟨1, 100, 100, "aa"⟩ : AppendReq) :: [⟨2, 150, 150, "bb"⟩]).map AppendReq.t) ∧
      ((([] : List AppendReq) ++
        (⟨1, 100, 100, "aa"⟩ : AppendReq) :: [⟨2, 150, 150, "bb"⟩]).map
          (reqEventId "s1")).Nodup) ∧
    replayEventsAfter (appendAll RedisState.empty "s1"
        (([] : List AppendReq) ++
          (⟨1, 100, 100, "aa"⟩ : AppendReq) :: [⟨2, 150, 150, "bb"⟩])).2
        (reqEventId "s1" ⟨1, 100, 100, "aa"⟩)
      = ("s1", [⟨2, 150, 150, "bb"⟩].map
          (fun r : AppendReq => (reqEventId "s1" r, r.msg))) :=
  ⟨⟨by decide, by decide, by decide, by decide⟩,
    replayEventsAfter_delivers_suffix "s1" [] [⟨2, 150, 150, "bb"⟩]
      ⟨1, 100, 100, "aa"⟩ (by decide) (by decide) (by decide) (by decide)⟩

/-- C4 (counterexample): the claim as stated fails at the cutoff boundary.
One event at timestamp 100; `cleanupOldEvents` with `now = 150`,
`olderThanMs = 50` puts the cutoff at exactly 100; the claim says an event at
the cutoff is retained, but the inclusive `-inf..cutoff` range of the code deletes
its record and its index entry. -/
theorem cleanup_at_cutoff_counterexample :
    (cleanupOldEvents (appendAll RedisState.empty "s1" [⟨1, 100, 100, "aa"⟩]).2
        "s1" 50 150).events (reqEventId "s1" ⟨1, 100, 100, "aa"⟩) = none ∧
    (cleanupOldEvents (appendAll RedisState.empty "s1" [⟨1, 100, 100, "aa"⟩]).2
        "s1" 50 150).zsets "s1" = [] :=
  ⟨by decide, by decide⟩

/-- C4 (amended): on a stream built by appends with strictly increasing
timestamps and distinct event ids, `cleanupOldEvents` deletes exactly the
events whose timestamp is at or before the cutoff `now - olderThanMs`
(inclusive), removing both their per-event records and their ordering-index
entries; every event with timestamp strictly after the cutoff is retained
intact; and a subsequent `replayEventsAfter` with a pruned event id yields
the empty sentinel outcome. -/
theorem cleanupOldEvents_prunes (s : String) (reqs : List AppendReq)
    (olderThanMs now : Nat)
    (hmono : List.Pairwise (· < ·) (reqs.map AppendReq.t))
    (hids : (reqs.map (reqEventId s)).Nodup) :
    (∀ r ∈ reqs,
      (cleanupOldEvents (appendAll RedisState.empty s reqs).2 s olderThanMs now).events
          (reqEventId s r)
        = if (r.t : Int) ≤ (now : Int) - (olderThanMs : Int) then none
          else some { streamId := s, message := encodeMessage r.msg, timestamp := r.t }) ∧
    (cleanupOldEvents (appendAll RedisState.empty s reqs).2 s olderThanMs now).zsets s
      = (reqs.filter
          (fun r => !(((r.t : Int) ≤ (now : Int) - (olderThanMs : Int) : Bool)))).map
          (fun r => (reqEventId s r, r.t)) ∧
    (∀ r ∈ reqs, (r.t : Int) ≤ (now : Int) - (olderThanMs : Int) →
      replayEventsAfter
          (cleanupOldEvents (appendAll RedisState.empty s reqs).2 s olderThanMs now)
          (reqEventId s r)
        = ("", [])) := by
  have hzs := appendAll_zsets_empty s reqs hids hmono
  have hold : zRangeByScoreLe ((now : Int) - (olderThanMs : Int))
        ((appendAll RedisState.empty s reqs).2.zsets s)
      = (reqs.filter
          (fun r => ((r.t : Int) ≤ (now : Int) - (olderThanMs : Int) : Bool))).map
          (reqEventId s) := by
    rw [hzs]
    unfold zRangeByScoreLe
    rw [List.filter_map, List.map_map]
    have hcongr : reqs.filter
          ((fun e : String × Nat => decide ((e.2 : Int) ≤ (now : Int) - (olderThanMs : Int))) ∘
            (fun r => (reqEventId s r, r.t)))
        = reqs.filter
            (fun r => ((r.t : Int) ≤ (now : Int) - (olderThanMs : Int) : Bool)) :=
      List.filter_congr (fun r _ => rfl)
    rw [hcongr]
    rfl
  have hmem : ∀ r ∈ reqs,
      (reqEventId s r ∈ (reqs.filter
          (fun r2 => ((r2.t : Int) ≤ (now : Int) - (olderThanMs : Int) : Bool))).map
          (reqEventId s)
        ↔ (r.t : Int) ≤ (now : Int) - (olderThanMs : Int)) := by
    intro r hr
    constructor
    · intro hin
      obtain ⟨r2, hr2, heq⟩ := List.mem_map.mp hin
      have hr2f := List.mem_filter.mp hr2
      have hr2r : r2 = r := List.inj_on_of_nodup_map hids hr2f.1 hr heq
      have := hr2f.2
      rw [hr2r] at this
      simpa using this
    · intro hle
      exact List.mem_map_of_mem _ (List.mem_filter.mpr ⟨hr, by simpa using hle⟩)
  have hev1 : ∀ r ∈ reqs,
      (cleanupOldEvents (appendAll RedisState.empty s reqs).2 s olderThanMs now).events
          (reqEventId s r)
        = if reqEventId s r ∈ zRangeByScoreLe ((now : Int) - (olderThanMs : Int))
              ((appendAll RedisState.empty s reqs).2.zsets s) then none
          else (appendAll RedisState.empty s reqs).2.events (reqEventId s r) := by
    intro r _
    exact foldl_del_events _ _ _
  refine ⟨?_, ?_, ?_⟩
  · intro r hr
    have h1 := hev1 r hr
    rw [hold] at h1
    by_cases hle : (r.t : Int) ≤ (now : Int) - (olderThanMs : Int)
    · rw [if_pos ((hmem r hr).mpr hle)] at h1
      rw [h1, if_pos hle]
    · have hnin : reqEventId s r ∉ (reqs.filter
          (fun r2 => ((r2.t : Int) ≤ (now : Int) - (olderThanMs : Int) : Bool))).map
          (reqEventId s) := fun hin => hle ((hmem r hr).mp hin)
      rw [if_neg hnin] at h1
      rw [h1, if_neg hle, appendAll_events_mem s reqs RedisState.empty hids r hr]
  · have h2 : (cleanupOldEvents (appendAll RedisState.empty s reqs).2 s olderThanMs now).zsets s
        = zremRangeByScoreLe ((now : Int) - (olderThanMs : Int))
            (((zRangeByScoreLe ((now : Int) - (olderThanMs : Int))
                ((appendAll RedisState.empty s reqs).2.zsets s)).foldl
              (fun s2 eid =>
                { s2 with events := fun k2 => if k2 = eid then none else s2.events k2 })
              (appendAll RedisState.empty s reqs).2).zsets s) := by
      show (if s = s then _ else _) = _
      rw [if_pos rfl]
    rw [h2, foldl_del_zsets, hzs]
    unfold zremRangeByScoreLe
    rw [List.filter_map]
    exact congrArg _ (List.filter_congr (fun r _ => rfl))
  · intro r hr hle
    have hnone : (cleanupOldEvents (appendAll RedisState.empty s reqs).2 s olderThanMs
        now).events (reqEventId s r) = none := by
      have h1 := hev1 r hr
      rw [hold, if_pos ((hmem r hr).mpr hle)] at h1
      exact h1
    have hid_ne : reqEventId s r ≠ "" := generateEventId_ne_empty s r.tId r.rand
    by_cases hp : getStreamIdFromEventId (reqEventId s r) = ""
    · simp [replayEventsAfter, hid_ne, hp]
    · simp [replayEventsAfter, hid_ne, hp, hnone]

/-- C4 (witness): concrete run of the amended theorem — appends at
timestamps 100 and 150, cleanup with cutoff 120: the record of the first event
and index entry are gone, the second survives, and replaying after the
pruned id gives the sentinel. -/
theorem cleanupOldEvents_prunes_witness :
    (List.Pairwise (· < ·)
        (([⟨1, 100, 100, "aa"⟩, ⟨2, 150, 150, "bb"⟩] : List AppendReq).map AppendReq.t) ∧
      (([⟨1, 100, 100, "aa"⟩, ⟨2, 150, 150, "bb"⟩] : List AppendReq).map
          (reqEventId "s1")).Nodup) ∧
    ((∀ r ∈ ([⟨1, 100, 100, "aa"⟩, ⟨2, 150, 150, "bb"⟩] : List AppendReq),
      (cleanupOldEvents (appendAll RedisState.empty "s1"
          [⟨1, 100, 100, "aa"⟩, ⟨2, 150, 150, "bb"⟩]).2 "s1" 30 150).events
          (reqEventId "s1" r)
        = if (r.t : Int) ≤ (150 : Int) - (30 : Int) then none
          else some { streamId := "s1", message := encodeMessage r.msg, timestamp := r.t }) ∧
    (cleanupOldEvents (appendAll RedisState.empty "s1"
        [⟨1, 100, 100, "aa"⟩, ⟨2, 150, 150, "bb"⟩]).2 "s1" 30 150).zsets "s1"
      = (([⟨1, 100, 100, "aa"⟩, ⟨2, 150, 150, "bb"⟩] : List AppendReq).filter
          (fun r => !(((r.t : Int) ≤ (150 : Int) - (30 : Int) : Bool)))).map
          (fun r => (reqEventId "s1" r, r.t)) ∧
    (∀ r ∈ ([⟨1, 100, 100, "aa"⟩, ⟨2, 150, 150, "bb"⟩] : List AppendReq),
      (r.t : Int) ≤ (150 : Int) - (30 : Int) →
      replayEventsAfter
          (cleanupOldEvents (appendAll RedisState.empty "s1"
              [⟨1, 100, 100, "aa"⟩, ⟨2, 150, 150, "bb"⟩]).2 "s1" 30 150)
          (reqEventId "s1" r)
        = ("", []))) :=
  ⟨⟨by decide, by decide⟩,
    cleanupOldEvents_prunes "s1" [⟨1, 100, 100, "aa"⟩, ⟨2, 150, 150, "bb"⟩] 30 150
      (by decide) (by decide)⟩

/-- C3 (counterexample): the claim as stated fails for a stream id that
itself contains the `'_'` separator — parsing the generated event id back
recovers only the prefix before the first underscore. -/
theorem eventId_roundtrip_underscore_counterexample :
    getStreamIdFromEventId (generateEventId "a_b" 0 "x") = "a" ∧ ("a" : String) ≠ "a_b" :=
  ⟨by decide, by decide⟩

/-- C3 (amended): for every stream id that does not contain the `'_'`
separator, parsing the event id built by `generateEventId` with
`getStreamIdFromEventId` recovers exactly that stream id, for every timestamp
and random suffix. -/
theorem eventId_roundtrip_no_underscore (s : String) (t : Nat) (r : String)
    (h : '_' ∉ s.data) :
    getStreamIdFromEventId (generateEventId s t r) = s :=
  getStreamIdFromEventId_gen s t r h

/-- C3 (witness): the round-trip at a concrete underscore-free stream id. -/
theorem eventId_roundtrip_no_underscore_witness :
    '_' ∉ ("s1" : String).data ∧
    getStreamIdFromEventId (generateEventId "s1" 100 "aa") = "s1" :=
  ⟨by decide, eventId_roundtrip_no_underscore "s1" 100 "aa" (by decide)⟩

/-- C5 (confirmed): `replayEventsAfter` with an empty `lastEventId`, one from
which no stream id can be parsed, or one whose event record does not resolve,
returns the empty sentinel `("", [])` — nothing is delivered to the sink and
no error is raised (the function is total). -/
theorem replayEventsAfter_soft_fail (st : RedisState) (lastEventId : String)
    (h : lastEventId = "" ∨ getStreamIdFromEventId lastEventId = ""
      ∨ st.events lastEventId = none) :
    replayEventsAfter st lastEventId = ("", []) := by
  rcases h with h | h | h <;> simp [replayEventsAfter, h]

/-- C5 (witness): replay on an empty store with an unknown cursor. -/
theorem replayEventsAfter_soft_fail_witness :
    (("x" : String) = "" ∨ getStreamIdFromEventId "x" = ""
      ∨ RedisState.empty.events "x" = none) ∧
    replayEventsAfter RedisState.empty "x" = ("", []) :=
  ⟨Or.inr (Or.inr rfl),
    replayEventsAfter_soft_fail RedisState.empty "x" (Or.inr (Or.inr rfl))⟩

/-- C9 (confirmed): `removeSession` is idempotent — the second call is a
no-op leaving both the shared store and the local cache in the same state,
and `sessionExists` is false after either call. -/
theorem removeSession_idempotent (st : ManagerState) (sid : String) :
    removeSession (removeSession st sid) sid = removeSession st sid ∧
    sessionExists (removeSession st sid) sid = false ∧
    sessionExists (removeSession (removeSession st sid) sid) sid = false := by
  refine ⟨?_, ?_, ?_⟩
  · show ManagerState.mk _ _ = ManagerState.mk _ _
    congr 1 <;> funext k <;> by_cases h : k = sid <;> simp [removeSession, h]
  · simp [sessionExists, removeSession]
  · simp [sessionExists, removeSession]

/-- C2 (confirmed): for a session whose metadata exists with the `sse` kind
and with no local transport on this node, `getOrCreateSSETransport` given a
response sink returns a fresh handle bound to the existing session id — not
the id the new transport generated (`freshId`) — and `getLocalTransport`
afterwards returns that same handle. -/
theorem getOrCreateSSETransport_restores (st : ManagerState) (sid freshId : String)
    (md : SessionMetadata)
    (hmd : getSession st sid = some md)
    (hty : md.transportType = "sse")
    (hlocal : st.localTransports sid = none) :
    (getOrCreateSSETransport st sid true freshId).1
      = some { kind := TransportKind.sse, sessionId := sid, endpoint := "/messages" } ∧
    getLocalTransport (getOrCreateSSETransport st sid true freshId).2 sid
      = some { kind := TransportKind.sse, sessionId := sid, endpoint := "/messages" } := by
  have hne : ¬md.transportType ≠ "sse" := fun hc => hc hty
  constructor
  · simp [getOrCreateSSETransport, hmd, hne, hlocal, createSSEBranch]
  · simp [getOrCreateSSETransport, hmd, hne, hlocal, createSSEBranch, getLocalTransport]

/-- C2 (witness): restoration on a node with no local handle, with a fresh
transport id that differs from the session id. -/
theorem getOrCreateSSETransport_restores_witness :
    (getSession sseDemoState "s"
        = some ⟨"s", "sse", 0, 0, some ⟨true, none⟩⟩ ∧
      (⟨"s", "sse", 0, 0, some ⟨true, none⟩⟩ : SessionMetadata).transportType = "sse" ∧
      sseDemoState.localTransports "s" = none) ∧
    ((getOrCreateSSETransport sseDemoState "s" true "fresh-xyz").1
        = some { kind := TransportKind.sse, sessionId := "s", endpoint := "/messages" } ∧
      getLocalTransport (getOrCreateSSETransport sseDemoState "s" true "fresh-xyz").2 "s"
        = some { kind := TransportKind.sse, sessionId := "s", endpoint := "/messages" }) :=
  ⟨⟨by decide, by decide, by decide⟩,
    getOrCreateSSETransport_restores sseDemoState "s" "fresh-xyz"
      ⟨"s", "sse", 0, 0, some ⟨true, none⟩⟩ (by decide) (by decide) (by decide)⟩

/-- C8 (confirmed): a stored metadata record whose embedded `sseState` blob
fails to decode still reads back successfully via `getSession`, with the
sub-state absent — the malformed blob never fails the read. -/
theorem getSession_malformed_blob (st : ManagerState) (sid : String)
    (hh : SessionHash) (blob : String)
    (hs : st.sessions sid = some hh)
    (hid : hh.sessionId ≠ "")
    (hblob : hh.sseState = some blob)
    (hmal : decodeSSEState blob = none) :
    getSession st sid = some (deserializeMetadata hh) ∧
    (deserializeMetadata hh).sseState = none := by
  constructor
  · simp [getSession, hs, hid]
  · by_cases hb : blob = ""
    · simp [deserializeMetadata, hblob, hb]
    · simp [deserializeMetadata, hblob, hb, hmal]

/-- C8 (witness): reading a record whose blob `"zz"` does not decode. -/
theorem getSession_malformed_blob_witness :
    (malformedDemoState.sessions "s" = some ⟨"s", "sse", 0, 0, some "zz"⟩ ∧
      (⟨"s", "sse", 0, 0, some "zz"⟩ : SessionHash).sessionId ≠ "" ∧
      (⟨"s", "sse", 0, 0, some "zz"⟩ : SessionHash).sseState = some "zz" ∧
      decodeSSEState "zz" = none) ∧
    (getSession malformedDemoState "s"
        = some (deserializeMetadata ⟨"s", "sse", 0, 0, some "zz"⟩) ∧
      (deserializeMetadata (⟨"s", "sse", 0, 0, some "zz"⟩ : SessionHash)).sseState = none) :=
  ⟨⟨by decide, by decide, by decide, by decide⟩,
    getSession_malformed_blob malformedDemoState "s" ⟨"s", "sse", 0, 0, some "zz"⟩ "zz"
      (by decide) (by decide) (by decide) (by decide)⟩

/-- C10 (confirmed): during a resolving replay, an event id present in the
ordering index whose per-event record is missing or whose payload does not
parse is silently skipped — no pair for it is delivered, no error is raised
(the function is total), and the delivery is the same as if that id were
absent from the index, so replay continues with the remaining events; the
resolved stream id is still returned. -/
theorem replay_skips_undeliverable (st : RedisState) (lastEventId : String)
    (led : EventRecord) (bad : String)
    (hne : lastEventId ≠ "")
    (hps : getStreamIdFromEventId lastEventId ≠ "")
    (hled : st.events lastEventId = some led)
    (_hmem : bad ∈ zRangeByScoreGe (led.timestamp + 1)
        (st.zsets (getStreamIdFromEventId lastEventId)))
    (hbad : st.events bad = none ∨
      ∃ ed, st.events bad = some ed ∧ decodeMessage ed.message = none) :
    (∀ m, (bad, m) ∉ (replayEventsAfter st lastEventId).2) ∧
    (replayEventsAfter st lastEventId).2
      = ((zRangeByScoreGe (led.timestamp + 1)
          (st.zsets (getStreamIdFromEventId lastEventId))).filter
            (fun e => e ≠ bad)).filterMap (sendStep st) ∧
    (replayEventsAfter st lastEventId).1 = getStreamIdFromEventId lastEventId := by
  have hstep : sendStep st bad = none := by
    rcases hbad with h | ⟨ed, hed, hdec⟩
    · simp [sendStep, h]
    · by_cases hm : ed.message = ""
      · simp [sendStep, hed, hm]
      · simp [sendStep, hed, hm, hdec]
  have hreplay : replayEventsAfter st lastEventId
      = (getStreamIdFromEventId lastEventId,
        (zRangeByScoreGe (led.timestamp + 1)
          (st.zsets (getStreamIdFromEventId lastEventId))).filterMap (sendStep st)) := by
    simp [replayEventsAfter, hne, hps, hled]
  refine ⟨?_, ?_, ?_⟩
  · intro m hm
    rw [hreplay] at hm
    obtain ⟨e, _, hse⟩ := List.mem_filterMap.mp hm
    have heb : (bad, m).1 = e := sendStep_fst st e _ hse
    rw [← heb] at hse
    rw [hstep] at hse
    cases hse
  · rw [hreplay]
    exact (filterMap_filter_ne (sendStep st) bad hstep _).symm
  · rw [hreplay]

/-- C10 (witness): the index of stream `"s"` holds `"s_2_bb"` (no record) and
`"s_3_cc"` (deliverable); replay after `"s_1_aa"` skips the former and still
delivers the latter. -/
theorem replay_skips_undeliverable_witness :
    ((("s_1_aa" : String) ≠ "" ∧
      getStreamIdFromEventId "s_1_aa" ≠ "" ∧
      c10DemoState.events "s_1_aa"
        = some { streamId := "s", message := encodeMessage 1, timestamp := 1 } ∧
      ("s_2_bb" : String) ∈ zRangeByScoreGe 2
        (c10DemoState.zsets (getStreamIdFromEventId "s_1_aa")) ∧
      c10DemoState.events "s_2_bb" = none) ∧
    ((∀ m, ("s_2_bb", m) ∉ (replayEventsAfter c10DemoState "s_1_aa").2) ∧
      (replayEventsAfter c10DemoState "s_1_aa").2
        = ((zRangeByScoreGe 2
            (c10DemoState.zsets (getStreamIdFromEventId "s_1_aa"))).filter
              (fun e => e ≠ "s_2_bb")).filterMap (sendStep c10DemoState) ∧
      (replayEventsAfter c10DemoState "s_1_aa").1 = getStreamIdFromEventId "s_1_aa")) :=
  ⟨⟨by decide, by decide, by decide, by decide, by decide⟩,
    replay_skips_undeliverable c10DemoState "s_1_aa"
      { streamId := "s", message := encodeMessage 1, timestamp := 1 } "s_2_bb"
      (by decide) (by decide) (by decide) (by decide) (Or.inl (by decide))⟩

/-- C7 (confirmed): for a streaming (`sse`) session whose metadata record
exists with a present sub-state, `markSessionDisconnected` flips the
connected flag of the sub-state to false and bumps `lastActive` to the current
time without deleting the record: afterwards `sessionExists` is still true,
the sub-state reports not connected, and the record reads back with only
those two changes. -/
theorem markSessionDisconnected_spec (st : ManagerState) (sid : String) (now : Nat)
    (md : SessionMetadata) (ss : SSEState)
    (hmd : getSession st sid = some md)
    (hty : md.transportType = "sse")
    (hss : md.sseState = some ss) :
    sessionExists (markSessionDisconnected st sid now) sid = true ∧
    isSSEConnected (markSessionDisconnected st sid now) sid = false ∧
    getSession (markSessionDisconnected st sid now) sid
      = some { md with
          sseState := some { ss with isConnected := false }
          lastActive := now } := by
  obtain ⟨hh, hsh, hhne, hdes⟩ := getSession_eq_some st sid md hmd
  have hmdid : md.sessionId ≠ "" := by
    rw [← hdes, (deserializeMetadata_fields hh).1]
    exact hhne
  have hst : (markSessionDisconnected st sid now).sessions sid
      = some (serializeMetadata
          { md with
            sseState := some { ss with isConnected := false }
            lastActive := now }) := by
    simp only [markSessionDisconnected, hmd, hty, hss]
    simp only [reduceIte]
    rw [hsetSession_of_isSome _ _ (by simp [serializeMetadata])]
  have hget2 : getSession (markSessionDisconnected st sid now) sid
      = some { md with
          sseState := some { ss with isConnected := false }
          lastActive := now } := by
    simp only [getSession, hst]
    rw [deserialize_serialize]
    rw [if_neg (show ¬(serializeMetadata
        { md with
          sseState := some { ss with isConnected := false }
          lastActive := now }).sessionId = "" from hmdid)]
  refine ⟨?_, ?_, hget2⟩
  · simp [sessionExists, hst]
  · simp [isSSEConnected, hget2, hty]

/-- C7 (witness): marking a concrete connected `sse` session disconnected at
time 9. -/
theorem markSessionDisconnected_spec_witness :
    (getSession sseDemoState "s" = some ⟨"s", "sse", 0, 0, some ⟨true, none⟩⟩ ∧
      (⟨"s", "sse", 0, 0, some ⟨true, none⟩⟩ : SessionMetadata).transportType = "sse" ∧
      (⟨"s", "sse", 0, 0, some ⟨true, none⟩⟩ : SessionMetadata).sseState
        = some ⟨true, none⟩) ∧
    (sessionExists (markSessionDisconnected sseDemoState "s" 9) "s" = true ∧
      isSSEConnected (markSessionDisconnected sseDemoState "s" 9) "s" = false ∧
      getSession (markSessionDisconnected sseDemoState "s" 9) "s"
        = some ⟨"s", "sse", 0, 9, some ⟨false, none⟩⟩) :=
  ⟨⟨by decide, by decide, by decide⟩,
    by
      exact markSessionDisconnected_spec sseDemoState "s" 9
        ⟨"s", "sse", 0, 0, some ⟨true, none⟩⟩ ⟨true, none⟩
        (by decide) (by decide) (by decide)⟩

/-- C6 (counterexample): the claim as stated fails in the stateless variant
for a `streamable` session: when its `onclose` hook fires, the store record
is left completely untouched — it is neither marked disconnected (it carries
no sub-state at all) nor deleted from the registry; only the local handle is
dropped. -/
theorem onclose_streamable_record_untouched_counterexample :
    (oncloseHandler (registerSession ManagerState.empty "s"
        ⟨TransportKind.streamable, "s", ""⟩ "streamable" 0) "s" 5).sessions "s"
      = (registerSession ManagerState.empty "s"
          ⟨TransportKind.streamable, "s", ""⟩ "streamable" 0).sessions "s" ∧
    (oncloseHandler (registerSession ManagerState.empty "s"
        ⟨TransportKind.streamable, "s", ""⟩ "streamable" 0) "s" 5).sessions "s"
      = some ⟨"s", "streamable", 0, 0, none⟩ :=
  ⟨by decide, by decide⟩

/-- C6 (amended): what the `onclose` hook installed by `registerSession`
actually does.  Stateless variant: for an `sse` session the store record is
marked disconnected and kept (`sessionExists` still true, sub-state reports
not connected); for any other transport type the store record is left
untouched; in both cases the local handle is dropped.  Ownership-tracking
variant: the record is deleted outright for every transport type, together
with the local handle. -/
theorem onclose_disposition (st : ManagerState) (st2 : Stateful.ManagerState)
    (sid : String) (t : Transport) (ty nodeId : String) (now now2 : Nat)
    (hsid : sid ≠ "") :
    ((ty = "sse" →
        sessionExists (oncloseHandler (registerSession st sid t ty now) sid now2) sid
          = true ∧
        isSSEConnected (oncloseHandler (registerSession st sid t ty now) sid now2) sid
          = false) ∧
      (ty ≠ "sse" →
        (oncloseHandler (registerSession st sid t ty now) sid now2).sessions sid
          = (registerSession st sid t ty now).sessions sid) ∧
      (oncloseHandler (registerSession st sid t ty now) sid now2).localTransports sid
        = none) ∧
    ((Stateful.oncloseHandler
        (Stateful.registerSession st2 sid t ty nodeId now) sid).sessions sid = none ∧
      (Stateful.oncloseHandler
        (Stateful.registerSession st2 sid t ty nodeId now) sid).localTransports sid
        = none) := by
  refine ⟨⟨?_, ?_, ?_⟩, ?_, ?_⟩
  · -- stateless, sse: record marked disconnected, kept
    intro hty
    subst hty
    have hreg : (registerSession st sid t "sse" now).sessions sid
        = some (serializeMetadata ⟨sid, "sse", now, now, some ⟨true, none⟩⟩) := by
      show (if sid = sid then some (hsetSession (st.sessions sid) _) else _) = _
      rw [if_pos rfl, hsetSession_of_isSome _ _ (by simp [serializeMetadata])]
      simp only [reduceIte]
    have hget1 : getSession (registerSession st sid t "sse" now) sid
        = some ⟨sid, "sse", now, now, some ⟨true, none⟩⟩ := by
      simp only [getSession, hreg]
      rw [deserialize_serialize]
      rw [if_neg (show ¬(serializeMetadata
          (⟨sid, "sse", now, now, some ⟨true, none⟩⟩ : SessionMetadata)).sessionId = ""
        from hsid)]
    have hmark : (markSessionDisconnected (registerSession st sid t "sse" now) sid
          now2).sessions sid
        = some (serializeMetadata ⟨sid, "sse", now, now2, some ⟨false, none⟩⟩) := by
      simp only [markSessionDisconnected, hget1]
      simp only [reduceIte]
      rw [hreg, hsetSession_of_isSome _ _ (by simp [serializeMetadata])]
    have hget2 : getSession (markSessionDisconnected (registerSession st sid t "sse" now)
          sid now2) sid
        = some ⟨sid, "sse", now, now2, some ⟨false, none⟩⟩ := by
      simp only [getSession, hmark]
      rw [deserialize_serialize]
      rw [if_neg (show ¬(serializeMetadata
          (⟨sid, "sse", now, now2, some ⟨false, none⟩⟩ : SessionMetadata)).sessionId = ""
        from hsid)]
    constructor
    · simp [sessionExists, oncloseHandler, hmark]
    · have honc : isSSEConnected (oncloseHandler (registerSession st sid t "sse" now)
            sid now2) sid
          = isSSEConnected (markSessionDisconnected (registerSession st sid t "sse" now)
            sid now2) sid := rfl
      rw [honc]
      simp [isSSEConnected, hget2]
  · -- stateless, non-sse: store record untouched
    intro hty
    have hreg2 : (registerSession st sid t ty now).sessions sid
        = some (hsetSession (st.sessions sid)
            (serializeMetadata ⟨sid, ty, now, now, none⟩)) := by
      show (if sid = sid then some (hsetSession (st.sessions sid) (serializeMetadata
        ⟨sid, ty, now, now, if ty = "sse" then some ⟨true, none⟩ else none⟩)) else _) = _
      rw [if_pos rfl, if_neg hty]
    have hfields : ∀ o, (hsetSession o (serializeMetadata ⟨sid, ty, now, now, none⟩)).sessionId
          = sid ∧
        (hsetSession o (serializeMetadata ⟨sid, ty, now, now, none⟩)).transportType = ty := by
      intro o
      rcases o with _ | o
      · exact ⟨rfl, rfl⟩
      · exact ⟨rfl, rfl⟩
    have hget3 : getSession (registerSession st sid t ty now) sid
        = some (deserializeMetadata (hsetSession (st.sessions sid)
            (serializeMetadata ⟨sid, ty, now, now, none⟩))) := by
      simp only [getSession, hreg2]
      rw [if_neg]
      intro hc
      rw [(hfields (st.sessions sid)).1] at hc
      exact hsid hc
    have hmark2 : markSessionDisconnected (registerSession st sid t ty now) sid now2
        = registerSession st sid t ty now := by
      simp only [markSessionDisconnected, hget3]
      rw [if_neg]
      intro hc
      rw [(deserializeMetadata_fields _).2.1, (hfields (st.sessions sid)).2] at hc
      exact hty hc
    show (markSessionDisconnected (registerSession st sid t ty now) sid now2).sessions sid
      = (registerSession st sid t ty now).sessions sid
    rw [hmark2]
  · -- stateless: the local handle is always dropped
    show (if sid = sid then none
      else (markSessionDisconnected (registerSession st sid t ty now) sid
        now2).localTransports sid) = none
    rw [if_pos rfl]
  · -- ownership-tracking variant: record deleted
    show (if sid = sid then none else _) = none
    rw [if_pos rfl]
  · show (if sid = sid then none else _) = none
    rw [if_pos rfl]

/-- C6 (witness): the amended disposition at a concrete `sse` registration in
both variants. -/
theorem onclose_disposition_witness :
    (("s" : String) ≠ "") ∧
    (((("sse" : String) = "sse" →
        sessionExists (oncloseHandler (registerSession ManagerState.empty "s"
          ⟨TransportKind.sse, "s", "/messages"⟩ "sse" 0) "s" 5) "s" = true ∧
        isSSEConnected (oncloseHandler (registerSession ManagerState.empty "s"
          ⟨TransportKind.sse, "s", "/messages"⟩ "sse" 0) "s" 5) "s" = false) ∧
      (("sse" : String) ≠ "sse" →
        (oncloseHandler (registerSession ManagerState.empty "s"
          ⟨TransportKind.sse, "s", "/messages"⟩ "sse" 0) "s" 5).sessions "s"
          = (registerSession ManagerState.empty "s"
              ⟨TransportKind.sse, "s", "/messages"⟩ "sse" 0).sessions "s") ∧
      (oncloseHandler (registerSession ManagerState.empty "s"
          ⟨TransportKind.sse, "s", "/messages"⟩ "sse" 0) "s" 5).localTransports "s"
        = none) ∧
    ((Stateful.oncloseHandler (Stateful.registerSession Stateful.ManagerState.empty "s"
        ⟨TransportKind.sse, "s", "/messages"⟩ "sse" "node-1" 0) "s").sessions "s" = none ∧
      (Stateful.oncloseHandler (Stateful.registerSession Stateful.ManagerState.empty "s"
        ⟨TransportKind.sse, "s", "/messages"⟩ "sse" "node-1" 0) "s").localTransports "s"
        = none)) :=
  ⟨by decide,
    onclose_disposition ManagerState.empty Stateful.ManagerState.empty "s"
      ⟨TransportKind.sse, "s", "/messages"⟩ "sse" "node-1" 0 5 (by decide)⟩
